import Mathlib

/-!
Verification of the scroll-driven frame-playback engine
(`src/unnamed/part_001`, `src/unnamed/part_000`, `src/script.js`).

The engine's arithmetic is shallowly embedded:
* scroll-to-frame mapping and the progressive-loader seed phase work on
  exact rationals (`ℚ`), with JavaScript's `Math.round x = ⌊x + 1/2⌋`;
* the exponential-smoothing update (`lerp`) works on reals (`ℝ`), since its
  decay factor `(1 - f) ^ (dt * 60)` is a real power;
* the per-index frame store (status byte, image slot, loaded counter,
  in-flight request) is a labelled transition system whose events are the
  synchronous `loadFrame` call and the asynchronous `onload` / `onerror`
  completions.
-/

/- ── Configuration (CONFIG in all three variants) ─────────────────────── -/

def FRAME_COUNT : ℕ := 150

def keyCount : ℕ := 20

/-- JavaScript's `Math.round`: round half towards positive infinity,
`Math.round x = ⌊x + 1/2⌋`. -/
def jsRound (q : ℚ) : ℤ := ⌊q + 1/2⌋

/- ── Scroll-to-Frame Mapper (onScroll) ────────────────────────────────── -/

/-- `onScroll` in `src/unnamed/part_001` (and identically `part_000`):
`state.targetScrollProgress = max > 0 ? Math.min(window.scrollY / max, 1) : 0`.
Note there is no lower clamp. `O` is the raw scroll offset, `M` the maximum
scroll extent. -/
def targetScrollProgress001 (O M : ℚ) : ℚ :=
  if 0 < M then min (O / M) 1 else 0

/-- `onScroll` in `src/unnamed/part_001`:
`state.targetFrame = Math.min(Math.round(p * (FRAME_COUNT - 1)), FRAME_COUNT - 1)`. -/
def targetFrame001 (O M : ℚ) : ℤ :=
  min (jsRound (targetScrollProgress001 O M * ((FRAME_COUNT : ℚ) - 1)))
    ((FRAME_COUNT : ℤ) - 1)

/-- `onScroll` in `src/script.js`:
`state.targetScrollProgress = maxScroll > 0 ? Math.min(Math.max(window.scrollY / maxScroll, 0), 1) : 0`. -/
def targetScrollProgressS (O M : ℚ) : ℚ :=
  if 0 < M then min (max (O / M) 0) 1 else 0

/-- `onScroll` in `src/script.js`: the target frame, as in the other variants. -/
def targetFrameS (O M : ℚ) : ℤ :=
  min (jsRound (targetScrollProgressS O M * ((FRAME_COUNT : ℚ) - 1)))
    ((FRAME_COUNT : ℤ) - 1)

/-- Modelled from the spec: `progress = clamp(offset / max, 0, 1)`. -/
def clamp01 (x : ℚ) : ℚ := min (max x 0) 1

/- ── Progressive Loader, seed phase (preloadFrames) ───────────────────── -/

/-- The synchronous effect of `loadFrame(index)` on the `frameStatus` array:
`if (frameStatus[index] >= 1) return; frameStatus[index] = 1;`. -/
def loadFrameStatus (st : ℤ → ℕ) (index : ℤ) : ℤ → ℕ :=
  if 1 ≤ st index then st else fun j => if j = index then 1 else st j

/-- The indices requested by the seed phase of `preloadFrames`:
`loadFrame(Math.round(i * (CONFIG.FRAME_COUNT - 1) / (keyCount - 1)))`
for `i in [0, keyCount)`. -/
def seedTargets : List ℤ :=
  (List.range keyCount).map
    (fun i : ℕ => jsRound ((i : ℚ) * ((FRAME_COUNT : ℚ) - 1) / ((keyCount : ℚ) - 1)))

/-- The `frameStatus` array after the seed phase, starting from all
`Unrequested` (0). -/
def seedStatus : ℤ → ℕ := seedTargets.foldl loadFrameStatus (fun _ => 0)

/- ── Helper lemmas for the mapper ─────────────────────────────────────── -/

lemma jsRound_nonneg {q : ℚ} (h : 0 ≤ q) : 0 ≤ jsRound q := by
  unfold jsRound
  exact Int.le_floor.mpr (by push_cast; linarith)

lemma targetScrollProgressS_nonneg (O M : ℚ) : 0 ≤ targetScrollProgressS O M := by
  unfold targetScrollProgressS
  split
  · exact le_min (le_max_right _ _) zero_le_one
  · exact le_refl 0

/- ── Helper lemmas for the seed fold ──────────────────────────────────── -/

lemma loadFrameStatus_ne_zero (st : ℤ → ℕ) (i j : ℤ) :
    loadFrameStatus st i j ≠ 0 ↔ j = i ∨ st j ≠ 0 := by
  unfold loadFrameStatus
  split
  · rename_i h
    constructor
    · exact Or.inr
    · rintro (rfl | h2)
      · omega
      · exact h2
  · by_cases hj : j = i <;> simp [hj]

lemma foldl_loadFrameStatus_ne_zero (l : List ℤ) (st : ℤ → ℕ) (j : ℤ) :
    (l.foldl loadFrameStatus st) j ≠ 0 ↔ j ∈ l ∨ st j ≠ 0 := by
  induction l generalizing st with
  | nil => simp
  | cons i l ih =>
    rw [List.foldl_cons, ih, loadFrameStatus_ne_zero]
    simp only [List.mem_cons]
    tauto

/- ═══ Claim theorems ═══ -/

/-- Claim C1, counterexample: in the `part_001` / `part_000` variant of
`onScroll` the lower clamp is missing, so the negative offset `O = -1000`
with extent `M = 1000` yields progress `-1` and target frame `-149`,
outside `[0, FRAME_COUNT - 1]`. -/
theorem onScroll_negative_offset_counterexample :
    targetScrollProgress001 (-1000) 1000 = -1 ∧
    targetFrame001 (-1000) 1000 = -149 ∧
    ¬ (0 ≤ targetFrame001 (-1000) 1000) := by
  have h1 : targetScrollProgress001 (-1000) 1000 = -1 := by
    norm_num [targetScrollProgress001]
  refine ⟨h1, ?_, ?_⟩ <;>
    norm_num [targetFrame001, h1, jsRound, FRAME_COUNT,
      show ((-1 : ℚ)) * 149 + 1/2 = -297/2 by norm_num, Int.floor_eq_iff]

/-- Claim C1 (amended): for extent `M > 0` the `script.js` variant of
`onScroll` computes `progress = clamp(O/M, 0, 1)` and its target frame lies
in `[0, FRAME_COUNT - 1]` for every offset, negative offsets included;
the `part_001` / `part_000` variant computes `progress = min(O/M, 1)`
without the lower clamp, and its target frame lies in `[0, FRAME_COUNT - 1]`
for every offset `O ≥ 0`; for `M ≤ 0` both variants force progress 0. -/
theorem onScroll_mapper_range (O M : ℚ) :
    (M ≤ 0 → targetScrollProgressS O M = 0 ∧ targetScrollProgress001 O M = 0) ∧
    (0 < M →
      targetScrollProgressS O M = clamp01 (O / M) ∧
      0 ≤ targetFrameS O M ∧ targetFrameS O M ≤ (FRAME_COUNT : ℤ) - 1 ∧
      targetScrollProgress001 O M = min (O / M) 1 ∧
      (0 ≤ O → 0 ≤ targetFrame001 O M ∧ targetFrame001 O M ≤ (FRAME_COUNT : ℤ) - 1)) := by
  constructor
  · intro hM
    constructor <;> simp [targetScrollProgressS, targetScrollProgress001, not_lt.mpr hM]
  · intro hM
    refine ⟨by simp [targetScrollProgressS, clamp01, hM], ?_, min_le_right _ _, ?_, ?_⟩
    · refine le_min ?_ (by norm_num [FRAME_COUNT])
      refine jsRound_nonneg (mul_nonneg (targetScrollProgressS_nonneg O M) ?_)
      norm_num [FRAME_COUNT]
    · simp [targetScrollProgress001, hM]
    · intro hO
      refine ⟨le_min ?_ (by norm_num [FRAME_COUNT]), min_le_right _ _⟩
      refine jsRound_nonneg (mul_nonneg ?_ (by norm_num [FRAME_COUNT]))
      unfold targetScrollProgress001
      rw [if_pos hM]
      exact le_min (div_nonneg hO hM.le) zero_le_one

/-- Witness for `onScroll_mapper_range` at `O = 500`, `M = 1000`. -/
theorem onScroll_mapper_range_witness :
    (0 : ℚ) < 1000 ∧ (0 : ℚ) ≤ 500 ∧
    (0 ≤ targetFrameS 500 1000 ∧ targetFrameS 500 1000 ≤ (FRAME_COUNT : ℤ) - 1) ∧
    (0 ≤ targetFrame001 500 1000 ∧ targetFrame001 500 1000 ≤ (FRAME_COUNT : ℤ) - 1) :=
  ⟨by norm_num, by norm_num,
    ⟨((onScroll_mapper_range 500 1000).2 (by norm_num)).2.1,
     ((onScroll_mapper_range 500 1000).2 (by norm_num)).2.2.1⟩,
    ((onScroll_mapper_range 500 1000).2 (by norm_num)).2.2.2.2 (by norm_num)⟩

/-- Claim C5: with `keyCount = 20` and `FRAME_COUNT = 150` the seed phase of
`preloadFrames` requests load for exactly the index set
`{ round(i * 149 / 19) : i ∈ [0, 20) }` — concretely
`{0, 8, 16, 24, 31, 39, 47, 55, 63, 71, 78, 86, 94, 102, 110, 118, 125, 133, 141, 149}`
(the spec's elided `{0, 8, 16, ..., 149}`): after the seed phase an index
has been requested (status ≠ Unrequested) iff it is in that set. -/
theorem preloadFrames_seed_set :
    seedTargets =
      [0, 8, 16, 24, 31, 39, 47, 55, 63, 71, 78, 86, 94, 102, 110, 118,
        125, 133, 141, 149] ∧
    ∀ j : ℤ, seedStatus j ≠ 0 ↔ ∃ i : ℕ, i < 20 ∧ j = jsRound ((i : ℚ) * 149 / 19) := by
  have hlist : seedTargets =
      [0, 8, 16, 24, 31, 39, 47, 55, 63, 71, 78, 86, 94, 102, 110, 118,
        125, 133, 141, 149] := by
    norm_num [seedTargets, jsRound, keyCount, FRAME_COUNT, Int.floor_eq_iff,
      List.range_succ]
  refine ⟨hlist, fun j => ?_⟩
  rw [seedStatus, foldl_loadFrameStatus_ne_zero]
  simp only [ne_eq, not_true_eq_false, or_false, seedTargets, List.mem_map,
    List.mem_range]
  constructor
  · rintro ⟨i, hi, rfl⟩
    exact ⟨i, by simpa [keyCount] using hi, by norm_num [FRAME_COUNT, keyCount]⟩
  · rintro ⟨i, hi, rfl⟩
    exact ⟨i, by simpa [keyCount] using hi, by norm_num [FRAME_COUNT, keyCount]⟩

/- ── Compositor: nearest-ready frame selection (drawFrameToBuffer) ────── -/

/-- The fallback loop of `drawFrameToBuffer` in `part_001` / `part_000`:
`for (let d = 1; d < FRAME_COUNT; d++) { if (index - d >= 0 && frames[index - d]) break with it; if (index + d < FRAME_COUNT && frames[index + d]) break with it; }`.
`ready i` models `frames[i]` being non-null; `ds` is the list of remaining
distances `d`. -/
def nearestLoop (ready : ℕ → Bool) (index : ℕ) : List ℕ → Option ℕ
  | [] => none
  | d :: ds =>
    if d ≤ index ∧ ready (index - d) = true then some (index - d)
    else if index + d < FRAME_COUNT ∧ ready (index + d) = true then some (index + d)
    else nearestLoop ready index ds

/-- The frame index whose image `drawFrameToBuffer index` actually draws:
`frames[index]` if non-null, else the first non-null neighbour scanned at
increasing distance (lower side first); `none` means the draw is a no-op. -/
def nearestReady (ready : ℕ → Bool) (index : ℕ) : Option ℕ :=
  if ready index = true then some index
  else nearestLoop ready index (List.range' 1 (FRAME_COUNT - 1))

/-- The candidate indices examined at distance `d` from `index`, in scan
order: the lower neighbour (if in range) before the upper one. -/
def searchCandidates (index d : ℕ) : List ℕ :=
  (if d ≤ index then [index - d] else []) ++
    (if index + d < FRAME_COUNT then [index + d] else [])

/-- The full scan order of `drawFrameToBuffer`'s fallback:
`index, index - 1, index + 1, index - 2, index + 2, ...` restricted to
`[0, FRAME_COUNT)`. -/
def searchOrder (index : ℕ) : List ℕ :=
  index :: ((List.range' 1 (FRAME_COUNT - 1)).map (searchCandidates index)).flatten

/-- A concrete readiness predicate: exactly frames 5 and 9 are Ready. -/
def readyFiveNine : ℕ → Bool := fun i => i == 5 || i == 9

lemma nearestLoop_eq_find (ready : ℕ → Bool) (index : ℕ) (ds : List ℕ) :
    nearestLoop ready index ds = ((ds.map (searchCandidates index)).flatten).find? ready := by
  induction ds with
  | nil => rfl
  | cons d ds ih =>
    rw [List.map_cons, List.flatten_cons, nearestLoop]
    have hc : searchCandidates index d =
        (if d ≤ index then [index - d] else []) ++
          (if index + d < FRAME_COUNT then [index + d] else []) := rfl
    rw [hc]
    by_cases h1 : d ≤ index <;> by_cases h2 : index + d < FRAME_COUNT <;>
      simp only [h1, h2, if_true, if_false, ite_true, ite_false, List.nil_append,
        List.append_nil, List.cons_append, List.find?_cons, List.find?_nil] <;>
      cases hl : ready (index - d) <;> cases hr : ready (index + d) <;>
      simp_all [ih]

lemma nearestReady_eq_find (ready : ℕ → Bool) (index : ℕ) :
    nearestReady ready index = (searchOrder index).find? ready := by
  rw [nearestReady, searchOrder, List.find?_cons]
  cases h : ready index <;> simp [h, nearestLoop_eq_find]

lemma mem_searchOrder {index i : ℕ} (hindex : index < FRAME_COUNT)
    (hi : i < FRAME_COUNT) : i ∈ searchOrder index := by
  rw [searchOrder]
  rcases lt_trichotomy i index with h | rfl | h
  · refine List.mem_cons_of_mem _ (List.mem_flatten.mpr ⟨searchCandidates index (index - i), ?_, ?_⟩)
    · exact List.mem_map_of_mem _ (List.mem_range'_1.mpr ⟨by omega, by omega⟩)
    · unfold searchCandidates
      rw [if_pos (by omega)]
      exact List.mem_append_left _ (by simp; omega)
  · exact List.mem_cons_self _ _
  · refine List.mem_cons_of_mem _ (List.mem_flatten.mpr ⟨searchCandidates index (i - index), ?_, ?_⟩)
    · exact List.mem_map_of_mem _ (List.mem_range'_1.mpr ⟨by omega, by omega⟩)
    · unfold searchCandidates
      refine List.mem_append_right _ ?_
      rw [if_pos (by omega)]
      simp; omega

lemma searchOrder_mem_lt {index i : ℕ} (hindex : index < FRAME_COUNT)
    (hi : i ∈ searchOrder index) : i < FRAME_COUNT := by
  rw [searchOrder] at hi
  rcases List.mem_cons.mp hi with rfl | hi
  · exact hindex
  · obtain ⟨l, hl, hil⟩ := List.mem_flatten.mp hi
    obtain ⟨d, _, rfl⟩ := List.mem_map.mp hl
    unfold searchCandidates at hil
    rcases List.mem_append.mp hil with h | h <;> (split at h <;> simp_all <;> omega)

/-- Claim C4: for every index in `[0, FRAME_COUNT)`, `drawFrameToBuffer`
selects the first Ready frame in the outward scan order
`index, index - 1, index + 1, index - 2, index + 2, ...`, drawing nothing
exactly when no frame is Ready; and with Ready = {5, 9}, requesting frame 7
deterministically yields the equidistant tie's lower index, frame 5. -/
theorem drawFrameToBuffer_nearest_ready :
    (∀ (ready : ℕ → Bool) (index : ℕ), index < FRAME_COUNT →
      nearestReady ready index = (searchOrder index).find? ready ∧
      (nearestReady ready index = none ↔
        ∀ i, i < FRAME_COUNT → ready i = false)) ∧
    nearestReady readyFiveNine 7 = some 5 := by
  constructor
  · intro ready index hindex
    refine ⟨nearestReady_eq_find ready index, ?_⟩
    rw [nearestReady_eq_find, List.find?_eq_none]
    constructor
    · intro h i hi
      have := h i (mem_searchOrder hindex hi)
      simpa using this
    · intro h x hx
      simp [h x (searchOrder_mem_lt hindex hx)]
  · decide

/-- Witness for `drawFrameToBuffer_nearest_ready` at `ready = readyFiveNine`,
`index = 7`. -/
theorem drawFrameToBuffer_nearest_ready_witness :
    7 < FRAME_COUNT ∧
    nearestReady readyFiveNine 7 = (searchOrder 7).find? readyFiveNine ∧
    ¬ (nearestReady readyFiveNine 7 = none) :=
  ⟨by decide,
    (drawFrameToBuffer_nearest_ready.1 readyFiveNine 7 (by decide)).1,
    fun h =>
      absurd
        (((drawFrameToBuffer_nearest_ready.1 readyFiveNine 7 (by decide)).2.mp h)
          5 (by decide))
        (by decide)⟩

/- ── Frame Store: per-index load lifecycle (loadFrame and callbacks) ──── -/

/-- The state the engine keeps for one frame index:
`frameStatus[i]` (0 = Unrequested, 1 = Loading, 2 = Ready), the image slot
`frames[i]` (`none` = null; the payload abstracts the decoded image),
the global `framesLoadedCount` contribution of this index, and the number
of in-flight network requests for it. -/
structure FrameSlot where
  status : ℕ
  img : Option ℕ
  count : ℕ
  pending : ℕ
  deriving DecidableEq, Repr

/-- Startup state of a slot: `frames[i] = null`, `frameStatus[i] = 0`. -/
def initSlot : FrameSlot := ⟨0, none, 0, 0⟩

/-- The synchronous part of `loadFrame(index)` in `part_001` / `part_000`:
`if (frameStatus[index] >= 1) return; frameStatus[index] = 1;` and a new
`Image` request is put in flight. -/
def triggerLoad (s : FrameSlot) : FrameSlot :=
  if 1 ≤ s.status then s
  else { s with status := 1, pending := s.pending + 1 }

/-- Events on one frame slot: a `loadFrame` call, or the completion of an
in-flight request (`img.onload` with decoded payload `p`, or `img.onerror`). -/
inductive FrameEv where
  | trigger
  | succeed (p : ℕ)
  | fail
  deriving DecidableEq, Repr

/-- One step of the frame-slot lifecycle.
`onload`: `frames[index] = img; frameStatus[index] = 2; framesLoadedCount++`.
`onerror`: `frameStatus[index] = 0` and nothing else. -/
inductive FrameStep : FrameSlot → FrameEv → FrameSlot → Prop where
  | trigger (s : FrameSlot) : FrameStep s .trigger (triggerLoad s)
  | succeed (s : FrameSlot) (p : ℕ) (h : 1 ≤ s.pending) :
      FrameStep s (.succeed p) ⟨2, some p, s.count + 1, s.pending - 1⟩
  | fail (s : FrameSlot) (h : 1 ≤ s.pending) :
      FrameStep s .fail { s with status := 0, pending := s.pending - 1 }

/-- States of one slot reachable from startup. -/
def ReachableSlot (s : FrameSlot) : Prop :=
  Relation.ReflTransGen (fun a b => ∃ e, FrameStep a e b) initSlot s

/-- Invariant of the slot lifecycle: at most one request is ever in flight,
a request is in flight exactly while the status is Loading, and the image
slot is non-null exactly when the status is Ready. -/
def SlotInv (s : FrameSlot) : Prop :=
  s.pending ≤ 1 ∧ (s.pending = 1 ↔ s.status = 1) ∧ (s.img.isSome ↔ s.status = 2)

lemma slotInv_init : SlotInv initSlot := by
  constructor <;> simp [initSlot]

lemma slotInv_step {s s' : FrameSlot} {e : FrameEv} (hinv : SlotInv s)
    (hstep : FrameStep s e s') : SlotInv s' := by
  obtain ⟨h1, h2, h3⟩ := hinv
  have himg0 : s.status ≠ 2 → s.img = none := by
    intro h
    cases himg : s.img with
    | none => rfl
    | some q => exact absurd (h3.mp (by simp [himg])) h
  cases hstep with
  | trigger =>
    unfold triggerLoad
    split
    · exact ⟨h1, h2, h3⟩
    · rename_i hst
      have hp0 : s.pending = 0 := by omega
      have hnone : s.img = none := himg0 (by omega)
      exact ⟨by simp [hp0], by simp [hp0], by simp [hnone]⟩
  | succeed p hp =>
    refine ⟨by simp; omega, by simp; omega, by simp⟩
  | fail hp =>
    have hst : s.status = 1 := h2.mp (by omega)
    have himg : s.img = none := himg0 (by omega)
    refine ⟨by simp; omega, by simp; omega, by simp [himg]⟩

lemma slotInv_reachable {s : FrameSlot} (h : ReachableSlot s) : SlotInv s := by
  induction h with
  | refl => exact slotInv_init
  | tail _ hstep ih => exact slotInv_step ih hstep.choose_spec

/-- A concrete Loading slot and the Ready slot after a successful decode,
used by the witnesses. -/
def loadingSlot : FrameSlot := ⟨1, none, 0, 1⟩

def readySlot : FrameSlot := ⟨2, some 0, 1, 0⟩

lemma reachable_loadingSlot : ReachableSlot loadingSlot :=
  Relation.ReflTransGen.single ⟨.trigger, FrameStep.trigger initSlot⟩

lemma reachable_readySlot : ReachableSlot readySlot :=
  reachable_loadingSlot.tail ⟨.succeed 0, FrameStep.succeed loadingSlot 0 (by decide)⟩

/-- Claim C7: a load failure (`img.onerror`) reverts the frame's status to
Unrequested (0, so a later `loadFrame` call is not a no-op and retries),
changes neither the image slot nor the loaded count, and surfaces nothing
else (the handler's whole effect is the status write); and from any
reachable state, once a slot's status is Ready (2) no event — duplicate
trigger or request completion — ever moves it out of Ready. -/
theorem loadFrame_failure_silent_and_ready_absorbing :
    (∀ s s' : FrameSlot, FrameStep s .fail s' →
      s'.status = 0 ∧ s'.img = s.img ∧ s'.count = s.count ∧
        s'.pending = s.pending - 1) ∧
    (∀ (s : FrameSlot) (e : FrameEv) (s' : FrameSlot),
      ReachableSlot s → s.status = 2 → FrameStep s e s' → s'.status = 2) := by
  constructor
  · intro s s' hstep
    cases hstep
    exact ⟨rfl, rfl, rfl, rfl⟩
  · intro s e s' hr h2 hstep
    obtain ⟨hp1, hp2, _⟩ := slotInv_reachable hr
    cases hstep with
    | trigger =>
      unfold triggerLoad
      rw [if_pos (by omega)]
      exact h2
    | succeed p hp => rfl
    | fail hp => omega

/-- Witness for `loadFrame_failure_silent_and_ready_absorbing`: a failure
step out of the Loading slot, and a duplicate trigger on the Ready slot. -/
theorem loadFrame_failure_silent_and_ready_absorbing_witness :
    ((⟨0, none, 0, 0⟩ : FrameSlot).status = 0 ∧
      (⟨0, none, 0, 0⟩ : FrameSlot).img = loadingSlot.img ∧
      (⟨0, none, 0, 0⟩ : FrameSlot).count = loadingSlot.count ∧
      (⟨0, none, 0, 0⟩ : FrameSlot).pending = loadingSlot.pending - 1) ∧
    (triggerLoad readySlot).status = 2 :=
  ⟨loadFrame_failure_silent_and_ready_absorbing.1 loadingSlot ⟨0, none, 0, 0⟩
      (FrameStep.fail loadingSlot (by decide)),
    loadFrame_failure_silent_and_ready_absorbing.2 readySlot .trigger
      (triggerLoad readySlot) reachable_readySlot (by decide)
      (FrameStep.trigger readySlot)⟩

/-- Claim C8: `loadFrame` on a frame whose status is already Loading (1) or
Ready (2) is a no-op: the guard `if (frameStatus[index] >= 1) return;` fires,
so status, image slot and loaded count are unchanged and no new network
request is put in flight (`pending` unchanged). -/
theorem loadFrame_idempotent (s : FrameSlot) (h : 1 ≤ s.status) :
    triggerLoad s = s := by
  unfold triggerLoad
  rw [if_pos h]

/-- Witness for `loadFrame_idempotent` on a Loading and on a Ready slot. -/
theorem loadFrame_idempotent_witness :
    (1 ≤ loadingSlot.status ∧ triggerLoad loadingSlot = loadingSlot) ∧
    (1 ≤ readySlot.status ∧ triggerLoad readySlot = readySlot) :=
  ⟨⟨by decide, loadFrame_idempotent loadingSlot (by decide)⟩,
    ⟨by decide, loadFrame_idempotent readySlot (by decide)⟩⟩

/-- Claim C10: in every reachable slot state, the image slot `frames[i]` is
non-null exactly when `frameStatus[i]` is Ready (2) — so the compositor's
non-null scan agrees with a Ready-status query — and a non-null image slot
is never overwritten or cleared by any further event (write-once). -/
theorem frames_slot_invariant (s : FrameSlot) (hr : ReachableSlot s) :
    (s.img.isSome ↔ s.status = 2) ∧
    ∀ (e : FrameEv) (s' : FrameSlot), FrameStep s e s' →
      s.img.isSome → s'.img = s.img := by
  obtain ⟨hp1, hp2, hp3⟩ := slotInv_reachable hr
  refine ⟨hp3, ?_⟩
  intro e s' hstep himg
  have h2 : s.status = 2 := hp3.mp himg
  cases hstep with
  | trigger =>
    unfold triggerLoad
    rw [if_pos (by omega)]
  | succeed p hp => omega
  | fail hp => omega

/-- Witness for `frames_slot_invariant` at the Ready slot, with a duplicate
trigger event. -/
theorem frames_slot_invariant_witness :
    (readySlot.img.isSome ↔ readySlot.status = 2) ∧
    (triggerLoad readySlot).img = readySlot.img :=
  ⟨(frames_slot_invariant readySlot reachable_readySlot).1,
    (frames_slot_invariant readySlot reachable_readySlot).2 .trigger
      (triggerLoad readySlot) (FrameStep.trigger readySlot) (by decide)⟩

/- ── Smoothing / Interpolation Engine (lerp) ──────────────────────────── -/

noncomputable section

/-- `CONFIG.TARGET_FPS` (60 in all three variants). -/
def TARGET_FPS : ℝ := 60

/-- The un-snapped core of `lerp`:
`r = current + (target - current) * (1 - Math.pow(1 - factor, dt * TARGET_FPS))`. -/
def lerpRaw (c t f dt : ℝ) : ℝ :=
  c + (t - c) * (1 - (1 - f) ^ (dt * TARGET_FPS))

/-- The full `lerp`, parameterized by the snap epsilon `eps`:
`Math.abs(target - r) < eps ? target : r`. The three variants instantiate
`eps` with 0.5 (`part_001`), 0.001 (`script.js`) and 0.0005 (`part_000`). -/
def lerpWith (eps c t f dt : ℝ) : ℝ :=
  if |t - lerpRaw c t f dt| < eps then t else lerpRaw c t f dt

/-- `lerp` in `src/unnamed/part_001`, snap epsilon 0.5. -/
def lerp (c t f dt : ℝ) : ℝ := lerpWith 0.5 c t f dt

/-- `lerp` in `src/script.js`, snap epsilon 0.001. -/
def lerpS (c t f dt : ℝ) : ℝ := lerpWith 0.001 c t f dt

/-- `lerp` in `src/unnamed/part_000`, snap epsilon 0.0005. -/
def lerp000 (c t f dt : ℝ) : ℝ := lerpWith 0.0005 c t f dt

/-- Iterating the smoothing update from `c` with a fixed target `t`,
factor `f` and tick length `dt`. -/
def lerpIter (eps c t f dt : ℝ) : ℕ → ℝ
  | 0 => c
  | n + 1 => lerpWith eps (lerpIter eps c t f dt n) t f dt

end

/- ── Smoothing lemmas ─────────────────────────────────────────────────── -/

lemma sub_lerpRaw (c t f dt : ℝ) :
    t - lerpRaw c t f dt = (t - c) * (1 - f) ^ (dt * TARGET_FPS) := by
  unfold lerpRaw
  ring

lemma lerpRaw_sub_lerpRaw (a b t f dt : ℝ) :
    lerpRaw a t f dt - lerpRaw b t f dt = (a - b) * (1 - f) ^ (dt * TARGET_FPS) := by
  unfold lerpRaw
  ring

lemma decay_pos (f dt : ℝ) (hf1 : f < 1) : 0 < (1 - f) ^ (dt * TARGET_FPS) :=
  Real.rpow_pos_of_pos (by linarith) _

lemma decay_lt_one (f dt : ℝ) (hf0 : 0 < f) (hf1 : f < 1) (hdt : 0 < dt) :
    (1 - f) ^ (dt * TARGET_FPS) < 1 :=
  Real.rpow_lt_one (by linarith) (by linarith) (mul_pos hdt (by norm_num [TARGET_FPS]))

lemma lerpWith_sub_lerpRaw_abs_le (eps c t f dt : ℝ) (he : 0 ≤ eps) :
    |lerpWith eps c t f dt - lerpRaw c t f dt| ≤ eps := by
  unfold lerpWith
  split
  · rename_i hsnap
    exact le_of_lt hsnap
  · simpa using he

lemma lerpRaw_fixed (t f dt : ℝ) : lerpRaw t t f dt = t := by
  unfold lerpRaw
  ring

lemma lerpWith_fixed (eps t f dt : ℝ) : lerpWith eps t t f dt = t := by
  unfold lerpWith
  rw [lerpRaw_fixed]
  exact ite_self t

lemma dist_lerpWith_le (eps c t f dt : ℝ) (hf1 : f < 1) :
    |t - lerpWith eps c t f dt| ≤ |t - c| * (1 - f) ^ (dt * TARGET_FPS) := by
  have hG0 : (0:ℝ) ≤ (1 - f) ^ (dt * TARGET_FPS) := (decay_pos f dt hf1).le
  unfold lerpWith
  split
  · simpa using mul_nonneg (abs_nonneg (t - c)) hG0
  · rw [sub_lerpRaw, abs_mul, abs_of_nonneg hG0]

lemma dist_lerpWith_lt (eps c t f dt : ℝ) (hf0 : 0 < f) (hf1 : f < 1)
    (hdt : 0 < dt) (hne : c ≠ t) : |t - lerpWith eps c t f dt| < |t - c| := by
  have habs : 0 < |t - c| := abs_pos.mpr (sub_ne_zero.mpr fun h => hne h.symm)
  calc |t - lerpWith eps c t f dt|
      ≤ |t - c| * (1 - f) ^ (dt * TARGET_FPS) := dist_lerpWith_le eps c t f dt hf1
    _ < |t - c| * 1 := mul_lt_mul_of_pos_left (decay_lt_one f dt hf0 hf1 hdt) habs
    _ = |t - c| := mul_one _

lemma lerpWith_snap (eps c t f dt : ℝ) (hf0 : 0 < f) (hf1 : f < 1) (hdt : 0 < dt)
    (hclose : |t - c| < eps) : lerpWith eps c t f dt = t := by
  unfold lerpWith
  rw [if_pos]
  rw [sub_lerpRaw, abs_mul, abs_of_nonneg (decay_pos f dt hf1).le]
  calc |t - c| * (1 - f) ^ (dt * TARGET_FPS)
      ≤ |t - c| * 1 :=
        mul_le_mul_of_nonneg_left (decay_lt_one f dt hf0 hf1 hdt).le (abs_nonneg _)
    _ = |t - c| := mul_one _
    _ < eps := hclose

lemma lerpIter_fixed (eps c t f dt : ℝ) (n : ℕ)
    (h : lerpIter eps c t f dt n = t) :
    ∀ m, n ≤ m → lerpIter eps c t f dt m = t := by
  intro m hm
  induction m with
  | zero =>
    have hn : n = 0 := by omega
    rw [← hn]
    exact h
  | succ m ih =>
    by_cases hnm : n ≤ m
    · rw [lerpIter, ih hnm]
      exact lerpWith_fixed eps t f dt
    · have hn : n = m + 1 := by omega
      rw [← hn]
      exact h

lemma lerpIter_dist_le (eps c t f dt : ℝ) (hf1 : f < 1) (n : ℕ) :
    |t - lerpIter eps c t f dt n| ≤ |t - c| * ((1 - f) ^ (dt * TARGET_FPS)) ^ n := by
  induction n with
  | zero => simp [lerpIter]
  | succ n ih =>
    have hG0 : (0:ℝ) ≤ (1 - f) ^ (dt * TARGET_FPS) := (decay_pos f dt hf1).le
    calc |t - lerpIter eps c t f dt (n + 1)|
        ≤ |t - lerpIter eps c t f dt n| * (1 - f) ^ (dt * TARGET_FPS) :=
          dist_lerpWith_le eps (lerpIter eps c t f dt n) t f dt hf1
      _ ≤ |t - c| * ((1 - f) ^ (dt * TARGET_FPS)) ^ n * (1 - f) ^ (dt * TARGET_FPS) :=
          mul_le_mul_of_nonneg_right ih hG0
      _ = |t - c| * ((1 - f) ^ (dt * TARGET_FPS)) ^ (n + 1) := by ring

/-- Claim C2: framerate independence of the smoothing update. The raw
update with `dt = 2h` equals exactly two successive raw updates with
`dt = h` toward the same target; for the snapped update of the code the
two sides agree within three snap epsilons. -/
theorem lerp_framerate_independence (eps c t f h : ℝ) (hf0 : 0 < f)
    (hf1 : f < 1) (hh : 0 < h) (he : 0 ≤ eps) :
    lerpRaw c t f (2 * h) = lerpRaw (lerpRaw c t f h) t f h ∧
    |lerpWith eps c t f (2 * h) -
      lerpWith eps (lerpWith eps c t f h) t f h| ≤ 3 * eps := by
  have hp : (0:ℝ) < 1 - f := by linarith
  have hsplit : (1 - f) ^ ((2 * h) * TARGET_FPS) =
      (1 - f) ^ (h * TARGET_FPS) * (1 - f) ^ (h * TARGET_FPS) := by
    rw [show (2 * h) * TARGET_FPS = h * TARGET_FPS + h * TARGET_FPS by ring,
      Real.rpow_add hp]
  have hG0 : 0 < (1 - f) ^ (h * TARGET_FPS) := decay_pos f h hf1
  have hG1 : (1 - f) ^ (h * TARGET_FPS) < 1 := decay_lt_one f h hf0 hf1 hh
  have hraw : lerpRaw c t f (2 * h) = lerpRaw (lerpRaw c t f h) t f h := by
    unfold lerpRaw
    rw [hsplit]
    ring
  refine ⟨hraw, ?_⟩
  have e1 : |lerpWith eps c t f (2 * h) - lerpRaw c t f (2 * h)| ≤ eps :=
    lerpWith_sub_lerpRaw_abs_le eps c t f (2 * h) he
  rw [hraw] at e1
  have e2 : |lerpWith eps (lerpWith eps c t f h) t f h -
      lerpRaw (lerpWith eps c t f h) t f h| ≤ eps :=
    lerpWith_sub_lerpRaw_abs_le eps (lerpWith eps c t f h) t f h he
  have e3 : |lerpRaw (lerpWith eps c t f h) t f h -
      lerpRaw (lerpRaw c t f h) t f h| ≤ eps := by
    rw [lerpRaw_sub_lerpRaw, abs_mul, abs_of_pos hG0]
    calc |lerpWith eps c t f h - lerpRaw c t f h| * (1 - f) ^ (h * TARGET_FPS)
        ≤ eps * (1 - f) ^ (h * TARGET_FPS) :=
          mul_le_mul_of_nonneg_right
            (lerpWith_sub_lerpRaw_abs_le eps c t f h he) hG0.le
      _ ≤ eps * 1 := mul_le_mul_of_nonneg_left hG1.le he
      _ = eps := mul_one eps
  have t1 : |lerpWith eps c t f (2 * h) -
      lerpWith eps (lerpWith eps c t f h) t f h| ≤
      |lerpWith eps c t f (2 * h) - lerpRaw (lerpRaw c t f h) t f h| +
      |lerpRaw (lerpRaw c t f h) t f h -
        lerpWith eps (lerpWith eps c t f h) t f h| := abs_sub_le _ _ _
  have t2 : |lerpRaw (lerpRaw c t f h) t f h -
      lerpWith eps (lerpWith eps c t f h) t f h| ≤
      |lerpRaw (lerpRaw c t f h) t f h - lerpRaw (lerpWith eps c t f h) t f h| +
      |lerpRaw (lerpWith eps c t f h) t f h -
        lerpWith eps (lerpWith eps c t f h) t f h| := abs_sub_le _ _ _
  rw [abs_sub_comm] at e2 e3
  linarith

/-- Witness for `lerp_framerate_independence` at
`eps = 1/2, c = 0, t = 1, f = 1/2, h = 1/60`. -/
theorem lerp_framerate_independence_witness :
    (0:ℝ) < 1/2 ∧ (1/2:ℝ) < 1 ∧ (0:ℝ) < 1/60 ∧ (0:ℝ) ≤ 1/2 ∧
    (lerpRaw 0 1 (1/2) (2 * (1/60)) =
        lerpRaw (lerpRaw 0 1 (1/2) (1/60)) 1 (1/2) (1/60) ∧
      |lerpWith (1/2) 0 1 (1/2) (2 * (1/60)) -
        lerpWith (1/2) (lerpWith (1/2) 0 1 (1/2) (1/60)) 1 (1/2) (1/60)| ≤
        3 * (1/2)) :=
  ⟨by norm_num, by norm_num, by norm_num, by norm_num,
    lerp_framerate_independence (1/2) 0 1 (1/2) (1/60) (by norm_num)
      (by norm_num) (by norm_num) (by norm_num)⟩

/-- Claim C3: monotonic convergence of the smoothing update. Iterating
`lerpWith` with fixed target, factor `f ∈ (0,1)`, tick `dt > 0` and snap
epsilon `eps > 0` gives a distance-to-target sequence that strictly
decreases until the iterate is exactly the target, and the exact target is
reached within a bounded number of steps and kept forever. -/
theorem lerp_monotone_convergence (eps c t f dt : ℝ) (hf0 : 0 < f)
    (hf1 : f < 1) (hdt : 0 < dt) (he : 0 < eps) :
    (∀ n, lerpIter eps c t f dt n = t ∨
      |t - lerpIter eps c t f dt (n + 1)| < |t - lerpIter eps c t f dt n|) ∧
    ∃ N, ∀ n, N ≤ n → lerpIter eps c t f dt n = t := by
  constructor
  · intro n
    by_cases hn : lerpIter eps c t f dt n = t
    · exact Or.inl hn
    · exact Or.inr
        (dist_lerpWith_lt eps (lerpIter eps c t f dt n) t f dt hf0 hf1 hdt hn)
  · by_cases hc : c = t
    · refine ⟨0, lerpIter_fixed eps c t f dt 0 ?_⟩
      rw [lerpIter, hc]
    · have habs : 0 < |t - c| := abs_pos.mpr (sub_ne_zero.mpr fun h => hc h.symm)
      obtain ⟨k, hk⟩ :=
        exists_pow_lt_of_lt_one (div_pos he habs) (decay_lt_one f dt hf0 hf1 hdt)
      have hcancel : |t - c| * (eps / |t - c|) = eps := by
        field_simp
      have hdist : |t - lerpIter eps c t f dt k| < eps := by
        have h1 := lerpIter_dist_le eps c t f dt hf1 k
        have h2 : |t - c| * ((1 - f) ^ (dt * TARGET_FPS)) ^ k <
            |t - c| * (eps / |t - c|) := mul_lt_mul_of_pos_left hk habs
        rw [hcancel] at h2
        linarith
      refine ⟨k + 1, lerpIter_fixed eps c t f dt (k + 1) ?_⟩
      rw [lerpIter]
      exact lerpWith_snap eps (lerpIter eps c t f dt k) t f dt hf0 hf1 hdt hdist

/-- Witness for `lerp_monotone_convergence` at
`eps = 1/2, c = 0, t = 1, f = 1/2, dt = 1/60`. -/
theorem lerp_monotone_convergence_witness :
    (0:ℝ) < 1/2 ∧ (1/2:ℝ) < 1 ∧ (0:ℝ) < 1/60 ∧
    ((lerpIter (1/2) 0 1 (1/2) (1/60) 0 = 1 ∨
      |1 - lerpIter (1/2) 0 1 (1/2) (1/60) 1| <
        |1 - lerpIter (1/2) 0 1 (1/2) (1/60) 0|) ∧
     ∃ N, ∀ n, N ≤ n → lerpIter (1/2) 0 1 (1/2) (1/60) n = 1) :=
  ⟨by norm_num, by norm_num, by norm_num,
    ⟨(lerp_monotone_convergence (1/2) 0 1 (1/2) (1/60) (by norm_num)
        (by norm_num) (by norm_num) (by norm_num)).1 0,
     (lerp_monotone_convergence (1/2) 0 1 (1/2) (1/60) (by norm_num)
        (by norm_num) (by norm_num) (by norm_num)).2⟩⟩

/- ── Animation Loop Driver (animate) ──────────────────────────────────── -/

noncomputable section

/-- `CONFIG.LERP_FACTOR` in `part_001` (0.08). -/
def LERP_FACTOR : ℝ := 0.08

/-- `CONFIG.CANVAS_LERP` (0.14 in all three variants). -/
def CANVAS_LERP : ℝ := 0.14

/-- The tick's elapsed-time computation in `animate`:
`const dt = Math.min((timestamp - state.lastTime) / 1000, 0.1) || 0.016;`.
JavaScript's `||` replaces the left value exactly when it is falsy, i.e.
here when the clamped delta is 0. -/
def dtOf (lastTime timestamp : ℝ) : ℝ :=
  if min ((timestamp - lastTime) / 1000) 0.1 = 0 then 0.016
  else min ((timestamp - lastTime) / 1000) 0.1

/-- `Math.round` on a real, `⌊x + 1/2⌋`, used for `Math.round(sf)`. -/
def jsRoundR (x : ℝ) : ℤ := ⌊x + 1/2⌋

/-- The mutable state read and written by one `animate` tick in `part_001`,
plus an abstract offscreen buffer recording the index last drawn into it
by `drawFrameToBuffer` (`none` = nothing drawn yet). -/
structure ScrollState where
  targetScrollY : ℝ
  targetScrollProgress : ℝ
  smoothScrollY : ℝ
  smoothScrollProgress : ℝ
  currentFrame : ℝ
  displayedFrame : ℤ
  targetFrame : ℤ
  lastTime : ℝ
  anyFrameReady : Bool
  buffer : Option ℤ

/-- The tick's smoothed frame `sf`:
`lerp(state.currentFrame < 0 ? state.targetFrame : state.currentFrame, state.targetFrame, CONFIG.CANVAS_LERP, dt)`. -/
def smoothFrameOf (s : ScrollState) (timestamp : ℝ) : ℝ :=
  lerp (if s.currentFrame < 0 then (s.targetFrame : ℝ) else s.currentFrame)
    (s.targetFrame : ℝ) CANVAS_LERP (dtOf s.lastTime timestamp)

/-- The tick's `renderFrame = Math.round(sf)`. -/
def renderFrameOf (s : ScrollState) (timestamp : ℝ) : ℤ :=
  jsRoundR (smoothFrameOf s timestamp)

/-- One `animate(timestamp)` tick of `part_001`, restricted to the state it
mutates (the DOM style writes have no further data flow). The returned
`Bool` records whether the tick invoked the compositor draw primitive
(`drawFrameToBuffer` + `blitBuffer`); the draw happens exactly under
`renderFrame !== state.displayedFrame && anyFrameReady`, writes the clamped
frame into the buffer and updates the displayed-frame marker. -/
def animate (s : ScrollState) (timestamp : ℝ) : ScrollState × Bool :=
  if renderFrameOf s timestamp ≠ s.displayedFrame ∧ s.anyFrameReady = true then
    ({ s with
        smoothScrollY :=
          lerp s.smoothScrollY s.targetScrollY LERP_FACTOR (dtOf s.lastTime timestamp),
        smoothScrollProgress :=
          lerp s.smoothScrollProgress s.targetScrollProgress CANVAS_LERP
            (dtOf s.lastTime timestamp),
        currentFrame := smoothFrameOf s timestamp,
        lastTime := timestamp,
        displayedFrame :=
          min (max (renderFrameOf s timestamp) 0) ((FRAME_COUNT : ℤ) - 1),
        buffer :=
          some (min (max (renderFrameOf s timestamp) 0) ((FRAME_COUNT : ℤ) - 1)) },
      true)
  else
    ({ s with
        smoothScrollY :=
          lerp s.smoothScrollY s.targetScrollY LERP_FACTOR (dtOf s.lastTime timestamp),
        smoothScrollProgress :=
          lerp s.smoothScrollProgress s.targetScrollProgress CANVAS_LERP
            (dtOf s.lastTime timestamp),
        currentFrame := smoothFrameOf s timestamp,
        lastTime := timestamp },
      false)

/-- A concrete converged state: smoothed frame 0 already displayed. -/
def stillState : ScrollState := ⟨0, 0, 0, 0, 0, 0, 0, 0, true, none⟩

end

lemma renderFrame_stillState :
    renderFrameOf stillState 16 = stillState.displayedFrame := by
  have h1 : smoothFrameOf stillState 16 = 0 := by
    simp [smoothFrameOf, stillState, lerp, lerpWith_fixed]
  show jsRoundR (smoothFrameOf stillState 16) = stillState.displayedFrame
  rw [h1]
  unfold jsRoundR stillState
  norm_num

/-- Claim C9, counterexample: the fallback value of `dt` in `animate` is
`0.016`, which is not the nominal frame duration `1/60 = 0.01666...` the
claim states. -/
theorem animate_dt_default_counterexample :
    dtOf 0 0 = 0.016 ∧ (0.016 : ℝ) ≠ 1 / 60 := by
  constructor
  · unfold dtOf
    rw [if_pos (by norm_num)]
  · norm_num

/-- Claim C9 (amended): on every tick whose timestamp is at least the
previous one, `dt` equals the timestamp delta in seconds clamped to the
upper bound 0.1 whenever that clamped delta is nonzero, and defaults to
`0.016` seconds (the code's nominal frame duration, approximately but not
exactly 1/60) when the clamped delta is zero (as on a first tick fired at
the time origin); consequently `dt` is always positive and at most 0.1. -/
theorem animate_dt_clamped (lastTime timestamp : ℝ)
    (h : lastTime ≤ timestamp) :
    0 < dtOf lastTime timestamp ∧ dtOf lastTime timestamp ≤ 0.1 ∧
    (min ((timestamp - lastTime) / 1000) 0.1 ≠ 0 →
      dtOf lastTime timestamp = min ((timestamp - lastTime) / 1000) 0.1) ∧
    (min ((timestamp - lastTime) / 1000) 0.1 = 0 →
      dtOf lastTime timestamp = 0.016) := by
  have hd0 : 0 ≤ min ((timestamp - lastTime) / 1000) 0.1 :=
    le_min (div_nonneg (by linarith) (by norm_num)) (by norm_num)
  unfold dtOf
  split
  · rename_i h0
    exact ⟨by norm_num, by norm_num, fun hne => absurd h0 hne, fun _ => rfl⟩
  · rename_i h0
    exact ⟨lt_of_le_of_ne hd0 (Ne.symm h0), min_le_right _ _, fun _ => rfl,
      fun heq => absurd heq h0⟩

/-- Witness for `animate_dt_clamped` at `lastTime = 0`, `timestamp = 16`. -/
theorem animate_dt_clamped_witness :
    (0:ℝ) ≤ 16 ∧ (0 < dtOf 0 16 ∧ dtOf 0 16 ≤ 0.1) :=
  ⟨by norm_num,
    ⟨(animate_dt_clamped 0 16 (by norm_num)).1,
     (animate_dt_clamped 0 16 (by norm_num)).2.1⟩⟩

/-- Claim C6: on a tick in which the rounded smoothed frame equals the
displayed-frame marker, `animate` does not invoke the compositor draw
primitive, and both the marker and the offscreen buffer are unchanged. -/
theorem animate_no_redundant_draw (s : ScrollState) (timestamp : ℝ)
    (h : renderFrameOf s timestamp = s.displayedFrame) :
    (animate s timestamp).2 = false ∧
    (animate s timestamp).1.displayedFrame = s.displayedFrame ∧
    (animate s timestamp).1.buffer = s.buffer := by
  unfold animate
  rw [if_neg (by simp [h])]
  exact ⟨rfl, rfl, rfl⟩

/-- Witness for `animate_no_redundant_draw` at the converged state. -/
theorem animate_no_redundant_draw_witness :
    renderFrameOf stillState 16 = stillState.displayedFrame ∧
    ((animate stillState 16).2 = false ∧
     (animate stillState 16).1.displayedFrame = stillState.displayedFrame ∧
     (animate stillState 16).1.buffer = stillState.buffer) :=
  ⟨renderFrame_stillState,
    animate_no_redundant_draw stillState 16 renderFrame_stillState⟩
